import Mathlib

/-!
The class template `test::stop_watch` of src/spinlock_time.hpp.

A shallow embedding of the stopwatch class template and a verification of its
contract.

Modelling conventions.

* `lock_free : Bool` is the compile-time constant
  `std::atomic<value_type>::is_always_lock_free`. It selects `time_type`:
  the duration `value_type` (a signed 64-bit tick count) when `true`, and
  `uint64_t` when `false`.
* A value of `time_type` is represented by the integer it denotes: the
  `count()` of the duration, or the unsigned integer itself.
* Unsigned 64-bit arithmetic is reduction modulo `2^64 = 18446744073709551616`.
  Overflow of the signed 64-bit tick count is undefined behaviour in the source;
  the model gives it the two's complement value in `[-2^63, 2^63)`, with
  `2^63 = 9223372036854775808`. A statement about the value of a signed subtraction
  assumes that the subtraction is defined, that is, that the difference is a value
  of `time_type`, and says so.
* `get_current_time()` reads the external clock. Every operation that calls it
  takes the reading it obtains as an explicit argument `now`.
* Atomic loads and stores are plain reads and writes of the field; the model is
  sequential.
* `values.size()` is the length of the list; the conversion from `size_t` to
  `uint64_t` is the identity on it.
* Objects live in a `Store` indexed by address, so that the identity test
  `this != &other` of the assignment operators can be expressed.
* The use of the mutex is recorded as the sequence of `Event`s of a member function,
  in program order.
* The constructor of `file_saver` is modelled with the file system as a parameter:
  the content of the file before the call, whether the stream opens, whether the
  stream reports a failed write, and how many bytes reach the file.
-/

namespace test

/-- Conversion of an integer to `uint64_t`: reduction modulo `2^64`. -/
def to_uint64 (x : Int) : Int :=
  x % 18446744073709551616

/-- Conversion of an integer to the signed 64-bit representation of a duration:
two's complement wrap-around into `[-2^63, 2^63)`. -/
def to_int64 (x : Int) : Int :=
  (x + 9223372036854775808) % 18446744073709551616 - 9223372036854775808

/-- The construction `time_type{ x }` from an integer `x`: a duration with the
signed count of `x` in the lock-free encoding, the `uint64_t` value otherwise. -/
def time_type_of (lock_free : Bool) (x : Int) : Int :=
  if lock_free then to_int64 x else to_uint64 x

/-- The integers that are values of `time_type`: `[-2^63, 2^63)` in the lock-free
encoding, `[0, 2^64)` in the `uint64_t` encoding. -/
def time_type_valid (lock_free : Bool) (x : Int) : Prop :=
  if lock_free then
    -9223372036854775808 ≤ x ∧ x < 9223372036854775808
  else
    0 ≤ x ∧ x < 18446744073709551616

instance time_type_valid_decidable (lock_free : Bool) (x : Int) :
    Decidable (time_type_valid lock_free x) := by
  unfold time_type_valid
  exact inferInstance

/-- The subtraction `a - b` of two `time_type` values, as the encoding computes it. -/
def time_sub (lock_free : Bool) (a b : Int) : Int :=
  time_type_of lock_free (a - b)

/-- The members of `stop_watch`: `total_time_units` (the threshold),
`start_time_units` (the start mark) and `values` (the recorded samples). -/
structure stop_watch where
  total_time_units : Int
  start_time_units : Int
  values : List Int
deriving DecidableEq

/-- The state given by the default member initializers `{}`. -/
def stop_watch.default_members : stop_watch :=
  { total_time_units := 0, start_time_units := 0, values := [] }

/-- The member `get_value_as_uint(time)`: `time.count()` returned as `uint64_t`
in the lock-free encoding, `time` itself otherwise. -/
def get_value_as_uint (lock_free : Bool) (time : Int) : Int :=
  if lock_free then to_uint64 time else time

/-- The constructor `stop_watch(uint64_t newTime)`: stores `time_type{ newTime }`
into `total_time_units`; the other members keep their default initializers. -/
def stop_watch.construct (lock_free : Bool) (newTime : Nat) : stop_watch :=
  { stop_watch.default_members with
    total_time_units := time_type_of lock_free (newTime : Int) }

/-- The member `has_time_elapsed()`, with `now` the value of `get_current_time()`. -/
def stop_watch.has_time_elapsed (lock_free : Bool) (w : stop_watch) (now : Int) : Bool :=
  decide (time_sub lock_free now w.start_time_units ≥ w.total_time_units)

/-- The member `total_time_elapsed()`, with `now` the value of `get_current_time()`. -/
def stop_watch.total_time_elapsed (lock_free : Bool) (w : stop_watch) (now : Int) : Int :=
  time_sub lock_free now w.start_time_units

/-- The member `total_time_elapsed_uint64()`, with `now` the value of
`get_current_time()`: an unsigned 64-bit subtraction of the two raw tick counts. -/
def stop_watch.total_time_elapsed_uint64 (lock_free : Bool) (w : stop_watch) (now : Int) : Int :=
  to_uint64 (get_value_as_uint lock_free now - get_value_as_uint lock_free w.start_time_units)

/-- The member `reset(newTimeValue)`, with `now` the value of `get_current_time()`.
The call `reset()` is `reset w 0 now`, the default argument being `time_type{}`. -/
def stop_watch.reset (w : stop_watch) (newTimeValue : Int) (now : Int) : stop_watch :=
  let w1 := if newTimeValue ≠ 0 then { w with total_time_units := newTimeValue } else w
  { w1 with start_time_units := now }

/-- The member `add_time()`: `now1` is the clock reading taken by
`total_time_elapsed()`, `now2` the one taken by the `reset()` that follows. -/
def stop_watch.add_time (lock_free : Bool) (w : stop_watch) (now1 now2 : Int) : stop_watch :=
  let w1 := { w with values := w.values ++ [stop_watch.total_time_elapsed lock_free w now1] }
  stop_watch.reset w1 0 now2

/-- The member `get_count()`. -/
def stop_watch.get_count (w : stop_watch) : Nat :=
  w.values.length

/-- The accumulation loop of `get_average`: `total_time += get_value_as_uint(value)`
on a `uint64_t` accumulator, over the samples in order. -/
def sum_values (lock_free : Bool) (total_time : Int) (values : List Int) : Int :=
  values.foldl (fun acc value => to_uint64 (acc + get_value_as_uint lock_free value)) total_time

/-- The divisor of `get_average`: `(values.size() > 0) ? values.size() : 1`. -/
def average_divisor (w : stop_watch) : Int :=
  if w.values.length > 0 then (w.values.length : Int) else 1

/-- The member `get_average(newTimeValue)`; the argument is not used. -/
def stop_watch.get_average (lock_free : Bool) (w : stop_watch) (_newTimeValue : Int) : Int :=
  sum_values lock_free 0 w.values / average_divisor w

/-- The member `get_total_wait_time()`. -/
def stop_watch.get_total_wait_time (lock_free : Bool) (w : stop_watch) : Int :=
  get_value_as_uint lock_free w.total_time_units

/-- The objects of the program, by address. -/
abbrev Store := Nat → stop_watch

/-- The store after the object at address `a` has been overwritten by `w`. -/
def Store.set (σ : Store) (a : Nat) (w : stop_watch) : Store :=
  fun b => if b = a then w else σ b

/-- The copy assignment `*this = other`, on the addresses of the two objects. -/
def copy_assign (σ : Store) (this other : Nat) : Store :=
  if this ≠ other then
    let σ1 := σ.set this { σ this with total_time_units := (σ other).total_time_units }
    let σ2 := σ1.set this { σ1 this with start_time_units := (σ1 other).start_time_units }
    σ2.set this { σ2 this with values := (σ2 other).values }
  else
    σ

/-- The copy constructor `stop_watch(const stop_watch & other)`: the members of the
new object at `this` get their default initializers, then `*this = other` runs. -/
def copy_construct (σ : Store) (this other : Nat) : Store :=
  copy_assign (σ.set this stop_watch.default_members) this other

/-- The move assignment `*this = std::move(other)`: the two duration members are
copied and the sample vectors are swapped. -/
def move_assign (σ : Store) (this other : Nat) : Store :=
  if this ≠ other then
    let σ1 := σ.set this { σ this with total_time_units := (σ other).total_time_units }
    let σ2 := σ1.set this { σ1 this with start_time_units := (σ1 other).start_time_units }
    let mine := (σ2 this).values
    let theirs := (σ2 other).values
    let σ3 := σ2.set this { σ2 this with values := theirs }
    σ3.set other { σ3 other with values := mine }
  else
    σ

/-- The move constructor `stop_watch(stop_watch && other)`. -/
def move_construct (σ : Store) (this other : Nat) : Store :=
  move_assign (σ.set this stop_watch.default_members) this other

/-- The call `add_time()` on the object at address `a`. -/
def add_time_at (lock_free : Bool) (σ : Store) (a : Nat) (now1 now2 : Int) : Store :=
  σ.set a (stop_watch.add_time lock_free (σ a) now1 now2)

/-- The call `reset(newTimeValue)` on the object at address `a`. -/
def reset_at (σ : Store) (a : Nat) (newTimeValue now : Int) : Store :=
  σ.set a (stop_watch.reset (σ a) newTimeValue now)

/-- A call of a public member function, with its argument and the clock readings
it obtains. -/
inductive Call where
  | add_time (now1 now2 : Int)
  | reset (newTimeValue now : Int)
  | has_time_elapsed (now : Int)
  | get_average (newTimeValue : Int)
  | get_total_wait_time
  | total_time_elapsed (now : Int)
  | total_time_elapsed_uint64 (now : Int)
  | get_count
deriving DecidableEq

/-- Whether a call is a call of `add_time()`. -/
def Call.is_add_time : Call → Bool
  | Call.add_time _ _ => true
  | _ => false

/-- The state of the object after one call. The query members only load, so they
leave the members as they are. -/
def Call.apply (lock_free : Bool) (w : stop_watch) : Call → stop_watch
  | Call.add_time now1 now2 => stop_watch.add_time lock_free w now1 now2
  | Call.reset newTimeValue now => stop_watch.reset w newTimeValue now
  | Call.has_time_elapsed _ => w
  | Call.get_average _ => w
  | Call.get_total_wait_time => w
  | Call.total_time_elapsed _ => w
  | Call.total_time_elapsed_uint64 _ => w
  | Call.get_count => w

/-- The state of the object after a sequence of calls, in order. -/
def run (lock_free : Bool) (w : stop_watch) (calls : List Call) : stop_watch :=
  calls.foldl (Call.apply lock_free) w

/-- A store whose object at address `0` has threshold `7`, start mark `3` and the
samples `4` and `5`, and whose other objects are in the default state. -/
def example_store : Store :=
  fun a => if a = 0 then { total_time_units := 7, start_time_units := 3, values := [4, 5] }
    else stop_watch.default_members

/-- Whether a call stores a new threshold: `reset(v)` with a non-zero `v`. -/
def Call.sets_threshold : Call → Bool
  | Call.reset newTimeValue _ => decide (newTimeValue ≠ 0)
  | _ => false

/-- The state after consecutive `add_time()` calls, one per pair of clock readings:
the first of a pair is read by `total_time_elapsed()`, the second by `reset()`. -/
def add_time_seq (lock_free : Bool) (w : stop_watch) (readings : List (Int × Int)) :
    stop_watch :=
  readings.foldl (fun u r => stop_watch.add_time lock_free u r.1 r.2) w

/-- The clock readings of consecutive `add_time()` calls are non-decreasing and at
least the start mark `s`. -/
def readings_ordered (s : Int) : List (Int × Int) → Bool
  | [] => true
  | r :: rest => decide (s ≤ r.1) && decide (r.1 ≤ r.2) && readings_ordered r.2 rest

/-- The last clock reading of consecutive `add_time()` calls, and `s` when there is
no call. -/
def last_reading (s : Int) : List (Int × Int) → Int
  | [] => s
  | r :: rest => last_reading r.2 rest

/-- What a member function does to the sample vector, to the mutex and to the clock,
in program order. -/
inductive Event where
  | lock
  | unlock
  | clock_read
  | append
  | scan
deriving DecidableEq

/-- The events of `add_time()`: `total_time_elapsed()` reads the clock, `emplace_back`
appends, `reset()` reads the clock. The two statements on `std::unique_lock` are
commented out in the source, so no event locks or unlocks the mutex. -/
def add_time_events : List Event :=
  [Event.clock_read, Event.append, Event.clock_read]

/-- The events of `get_average()` on `n` samples: the `std::unique_lock` is taken, the
loop visits every sample, and the lock is given back when the function returns. -/
def get_average_events (n : Nat) : List Event :=
  Event.lock :: (List.replicate n Event.scan ++ [Event.unlock])

/-- Whether a run of events, started with the mutex held or not, appends and scans
only with the mutex held and reads the clock only with the mutex not held. -/
def lock_discipline : Bool → List Event → Bool
  | _, [] => true
  | _, Event.lock :: rest => lock_discipline true rest
  | _, Event.unlock :: rest => lock_discipline false rest
  | held, Event.clock_read :: rest => !held && lock_discipline held rest
  | held, Event.append :: rest => held && lock_discipline held rest
  | held, Event.scan :: rest => held && lock_discipline held rest

end test

/-- What the constructor of `file_saver` leaves behind: the message of the
`std::runtime_error` it threw, if it threw, the lines it wrote to `std::cerr`, the
content of the file at the path afterwards (`none` when there is no file), and
whether the run reached `file.write` on an open stream with a null pointer and a
non-zero size, where the behaviour is undefined. -/
structure file_saver_outcome where
  thrown : Option String
  cerr : List String
  file : Option (List Nat)
  crashed : Bool

/-- The constructor `file_saver<exceptions>(path, data, size)`. A null `data` is
`none`; a non-null `data` points to at least `size` bytes. The file system is
external: `existing` is the content of the file at `path` before the call, `open_ok`
says whether the `std::ofstream` opens, which creates or truncates the file,
`write_fails` says whether the stream is in a failed state after a write of at least
one byte to the open stream (a buffered stream may report nothing although not every
byte reaches the file), and `written` is the number of bytes that reach the file by
the time the stream is closed at the end of the constructor. A write to a stream that
did not open does nothing and leaves the stream failed; a write of no bytes to an
open stream cannot fail. -/
def file_saver (exceptions : Bool) (path : String) (data : Option (List Nat)) (size : Nat)
    (existing : Option (List Nat)) (open_ok : Bool) (write_fails : Bool) (written : Nat) :
    file_saver_outcome :=
  let no_data := data.isNone || size == 0
  let msg_data := "Cannot save null or empty data to file: " ++ path
  let msg_open := "Failed to open file for writing: " ++ path
  let msg_write := "Failed to write data to file: " ++ path
  if no_data && exceptions then
    { thrown := some msg_data, cerr := [], file := existing, crashed := false }
  else
    let cerr1 := if no_data then [msg_data] else []
    let file1 := if open_ok then some [] else existing
    if !open_ok && exceptions then
      { thrown := some msg_open, cerr := cerr1, file := file1, crashed := false }
    else
      let cerr2 := if !open_ok then cerr1 ++ [msg_open] else cerr1
      if open_ok && data.isNone && decide (0 < size) then
        { thrown := none, cerr := cerr2, file := file1, crashed := true }
      else
        let file2 := if open_ok then some ((data.getD []).take (min size written)) else file1
        let write_ok := open_ok && (size == 0 || !write_fails)
        if !write_ok && exceptions then
          { thrown := some msg_write, cerr := cerr2, file := file2, crashed := false }
        else
          let cerr3 := if !write_ok then cerr2 ++ [msg_write] else cerr2
          { thrown := none, cerr := cerr3, file := file2, crashed := false }

namespace test

/-! Arithmetic of the two encodings -/

theorem to_uint64_of_valid (x : Int) (h0 : 0 ≤ x) (h1 : x < 18446744073709551616) :
    to_uint64 x = x := by
  unfold to_uint64
  omega

theorem to_int64_of_valid (x : Int) (h0 : -9223372036854775808 ≤ x)
    (h1 : x < 9223372036854775808) : to_int64 x = x := by
  unfold to_int64
  omega

theorem time_type_of_valid (lock_free : Bool) (x : Int) (h : time_type_valid lock_free x) :
    time_type_of lock_free x = x := by
  cases lock_free
  · simp only [time_type_valid, Bool.false_eq_true, if_false] at h
    simp only [time_type_of, Bool.false_eq_true, if_false]
    exact to_uint64_of_valid x h.1 h.2
  · simp only [time_type_valid, if_true] at h
    simp only [time_type_of, if_true]
    exact to_int64_of_valid x h.1 h.2

theorem time_type_of_zero (lock_free : Bool) : time_type_of lock_free 0 = 0 := by
  cases lock_free <;> simp [time_type_of, to_int64, to_uint64]

theorem time_sub_self (lock_free : Bool) (a : Int) : time_sub lock_free a a = 0 := by
  unfold time_sub
  rw [sub_self]
  exact time_type_of_zero lock_free

/-! The members, one by one -/

/-- C1: `has_time_elapsed()` returns true exactly when the elapsed amount
`now - start_time_units`, computed in the encoding of `time_type`, is greater than
or equal to `total_time_units` (true at equality). The elapsed amount is the signed
64-bit difference in the lock-free encoding and the difference modulo `2^64` in the
`uint64_t` encoding. -/
theorem has_time_elapsed_iff (w : stop_watch) (now : Int) :
    (∀ lock_free : Bool, stop_watch.has_time_elapsed lock_free w now = true ↔
      time_sub lock_free now w.start_time_units ≥ w.total_time_units) ∧
    (stop_watch.has_time_elapsed true w now = true ↔
      (now - w.start_time_units + 9223372036854775808) % 18446744073709551616
        - 9223372036854775808 ≥ w.total_time_units) ∧
    (stop_watch.has_time_elapsed false w now = true ↔
      (now - w.start_time_units) % 18446744073709551616 ≥ w.total_time_units) := by
  refine ⟨fun lock_free => ?_, ?_, ?_⟩
  · simp [stop_watch.has_time_elapsed]
  · simp [stop_watch.has_time_elapsed, time_sub, time_type_of, to_int64]
  · simp [stop_watch.has_time_elapsed, time_sub, time_type_of, to_uint64]

/-- C2: for every 64-bit unsigned `n`, also `n ≥ 2^63`, and in both encodings, a
stopwatch constructed with threshold `n` reports `n` from `get_total_wait_time()`. -/
theorem construct_get_total_wait_time (lock_free : Bool) (n : Nat)
    (h : n < 18446744073709551616) :
    stop_watch.get_total_wait_time lock_free (stop_watch.construct lock_free n) = (n : Int) := by
  cases lock_free
  · simp only [stop_watch.get_total_wait_time, stop_watch.construct, get_value_as_uint,
      time_type_of, to_uint64, Bool.false_eq_true, if_false]
    omega
  · simp only [stop_watch.get_total_wait_time, stop_watch.construct, get_value_as_uint,
      time_type_of, to_uint64, to_int64, if_true]
    omega

/-- The round trip of C2 at `n = 2^63 + 5` in the lock-free encoding, where the stored
duration has a negative count. -/
theorem construct_get_total_wait_time_witness :
    stop_watch.get_total_wait_time true (stop_watch.construct true 9223372036854775813)
      = ((9223372036854775813 : Nat) : Int) :=
  construct_get_total_wait_time true 9223372036854775813 (by decide)

/-- C3: `reset(v)` at clock reading `now` sets `start_time_units` to `now` in every
case, sets `total_time_units` to `v` when `v` is non-zero and leaves it as it was when
`v` is zero, and leaves `values` as it was. -/
theorem reset_spec (w : stop_watch) (v now : Int) :
    (stop_watch.reset w v now).start_time_units = now ∧
    (v ≠ 0 → (stop_watch.reset w v now).total_time_units = v) ∧
    (v = 0 → (stop_watch.reset w v now).total_time_units = w.total_time_units) ∧
    (stop_watch.reset w v now).values = w.values := by
  unfold stop_watch.reset
  by_cases hv : v = 0
  · simp [hv]
  · simp [hv]

/-- C4: `add_time()` with clock readings `now1` (elapsed capture) and `now2` (reset)
appends the single value `now1 - start_time_units`, computed in the encoding, at the
end of `values`, sets `start_time_units` to `now2` and keeps `total_time_units`. -/
theorem add_time_spec (lock_free : Bool) (w : stop_watch) (now1 now2 : Int) :
    (stop_watch.add_time lock_free w now1 now2).values
      = w.values ++ [time_sub lock_free now1 w.start_time_units] ∧
    (stop_watch.add_time lock_free w now1 now2).start_time_units = now2 ∧
    (stop_watch.add_time lock_free w now1 now2).total_time_units = w.total_time_units := by
  simp [stop_watch.add_time, stop_watch.reset, stop_watch.total_time_elapsed]

theorem get_count_apply (lock_free : Bool) (w : stop_watch) (c : Call) :
    stop_watch.get_count (Call.apply lock_free w c)
      = stop_watch.get_count w + (if c.is_add_time then 1 else 0) := by
  cases c <;>
    simp [Call.apply, Call.is_add_time, stop_watch.get_count, stop_watch.add_time,
      stop_watch.reset]
  rename_i v now
  by_cases hv : v = 0 <;> simp [hv]

theorem get_count_run_from (lock_free : Bool) (calls : List Call) :
    ∀ w : stop_watch, stop_watch.get_count (run lock_free w calls)
      = stop_watch.get_count w + calls.countP Call.is_add_time := by
  induction calls with
  | nil => intro w; simp [run]
  | cons c cs ih =>
    intro w
    have h := ih (Call.apply lock_free w c)
    simp only [run, List.foldl_cons] at h ⊢
    rw [h, get_count_apply, List.countP_cons]
    omega

/-- C5: after any finite sequence of public calls on a freshly constructed stopwatch,
with arbitrary arguments and clock readings, `get_count()` is the number of
`add_time()` calls in the sequence. -/
theorem get_count_run (lock_free : Bool) (n : Nat) (calls : List Call) :
    stop_watch.get_count (run lock_free (stop_watch.construct lock_free n) calls)
      = calls.countP Call.is_add_time := by
  rw [get_count_run_from]
  simp [stop_watch.get_count, stop_watch.construct, stop_watch.default_members]

/-! The average -/

theorem sum_values_eq (lock_free : Bool) (values : List Int) :
    ∀ acc : Int, acc % 18446744073709551616 = acc →
      sum_values lock_free acc values
        = (acc + (values.map (get_value_as_uint lock_free)).sum) % 18446744073709551616 := by
  induction values with
  | nil =>
    intro acc hacc
    simp [sum_values, hacc]
  | cons x xs ih =>
    intro acc hacc
    have hstep : to_uint64 (acc + get_value_as_uint lock_free x) % 18446744073709551616
        = to_uint64 (acc + get_value_as_uint lock_free x) := by
      unfold to_uint64
      omega
    have h := ih (to_uint64 (acc + get_value_as_uint lock_free x)) hstep
    simp only [sum_values, List.foldl_cons, List.map_cons, List.sum_cons] at h ⊢
    rw [h]
    unfold to_uint64
    omega

theorem average_divisor_of_ne_nil (w : stop_watch) (h : w.values ≠ []) :
    average_divisor w = (w.values.length : Int) := by
  have hpos : 0 < w.values.length := List.length_pos.mpr h
  simp [average_divisor, hpos]

/-- C6, the claim as stated, fails when the 64-bit accumulator overflows: with the
three non-negative samples `2^63 - 1`, `2^63 - 1` and `2`, whose raw tick counts add
up to `2^64`, `get_average()` returns `0` and not `2^64 / 3`. -/
theorem get_average_overflow_counterexample :
    time_type_valid true 9223372036854775807 ∧ time_type_valid true 2 ∧
    stop_watch.get_average true
      { total_time_units := 0, start_time_units := 0,
        values := [9223372036854775807, 9223372036854775807, 2] } 0 = 0 ∧
    (get_value_as_uint true 9223372036854775807 + get_value_as_uint true 9223372036854775807
      + get_value_as_uint true 2) / 3 = 6148914691236517205 := by
  decide

/-- C6, amended: with at least one recorded sample, `get_average()` returns the sum of
the raw tick counts reduced modulo `2^64`, divided by the number of samples with
integer division, whatever its argument; this is the quotient of the plain sum
whenever that sum is below `2^64`. -/
theorem get_average_eq (lock_free : Bool) (w : stop_watch) (v : Int) (h : w.values ≠ []) :
    stop_watch.get_average lock_free w v
      = ((w.values.map (get_value_as_uint lock_free)).sum % 18446744073709551616)
          / (w.values.length : Int) ∧
    (0 ≤ (w.values.map (get_value_as_uint lock_free)).sum →
      (w.values.map (get_value_as_uint lock_free)).sum < 18446744073709551616 →
      stop_watch.get_average lock_free w v
        = (w.values.map (get_value_as_uint lock_free)).sum / (w.values.length : Int)) := by
  have hmain : stop_watch.get_average lock_free w v
      = ((w.values.map (get_value_as_uint lock_free)).sum % 18446744073709551616)
          / (w.values.length : Int) := by
    unfold stop_watch.get_average
    rw [sum_values_eq lock_free w.values 0 (by decide), average_divisor_of_ne_nil w h, zero_add]
  refine ⟨hmain, fun h0 h1 => ?_⟩
  rw [hmain, Int.emod_eq_of_lt h0 h1]

/-- The average of the samples `1`, `2` and `4` is `7 / 3 = 2`, for the argument `9`. -/
theorem get_average_eq_witness :
    stop_watch.get_average true
      { total_time_units := 0, start_time_units := 0, values := [1, 2, 4] } 9 = 2 :=
  (get_average_eq true
    { total_time_units := 0, start_time_units := 0, values := [1, 2, 4] } 9
    (by decide)).1.trans (by decide)

/-- C7: with no recorded sample, whatever the threshold and the start mark,
`get_average()` returns `0`, dividing by `1`; the divisor is never zero, and it is the
number of samples when there is one at least. -/
theorem get_average_empty (lock_free : Bool) (threshold start v : Int) :
    stop_watch.get_average lock_free
      { total_time_units := threshold, start_time_units := start, values := [] } v = 0 ∧
    average_divisor
      { total_time_units := threshold, start_time_units := start, values := [] } = 1 ∧
    (∀ w : stop_watch, average_divisor w ≠ 0 ∧
      (w.values ≠ [] → average_divisor w = (w.values.length : Int))) := by
  refine ⟨?_, ?_, fun w => ⟨?_, average_divisor_of_ne_nil w⟩⟩
  · simp [stop_watch.get_average, sum_values, average_divisor]
  · simp [average_divisor]
  · unfold average_divisor
    split <;> omega

/-! Reset followed by a poll -/

theorem has_time_elapsed_reset_same (lock_free : Bool) (w : stop_watch) (now : Int) :
    stop_watch.has_time_elapsed lock_free (stop_watch.reset w 0 now) now
      = decide (w.total_time_units ≤ 0) := by
  simp [stop_watch.has_time_elapsed, stop_watch.reset, time_sub_self]

/-- C8: `reset()` with no argument followed by `has_time_elapsed()` at the same clock
reading returns false when the threshold is greater than zero and true when the
threshold is zero, in both encodings. -/
theorem reset_then_has_time_elapsed (lock_free : Bool) (w : stop_watch) (now : Int) :
    (0 < w.total_time_units →
      stop_watch.has_time_elapsed lock_free (stop_watch.reset w 0 now) now = false) ∧
    (w.total_time_units = 0 →
      stop_watch.has_time_elapsed lock_free (stop_watch.reset w 0 now) now = true) := by
  rw [has_time_elapsed_reset_same]
  constructor
  · intro h
    simp only [decide_eq_false_iff_not]
    omega
  · intro h
    simp only [decide_eq_true_eq]
    omega

theorem time_type_valid_sub_of_wait (threshold t0 t : Int)
    (hT : time_type_valid false threshold) (h0 : time_type_valid false t0)
    (h1 : time_type_valid false t) (h : t ≥ t0 + threshold) :
    time_type_valid false (t - t0) := by
  simp only [time_type_valid, Bool.false_eq_true, if_false] at hT h0 h1 ⊢
  omega

/-- C9: after `reset()` at the clock reading `t0`, `has_time_elapsed()` at any clock
reading `t` with `t ≥ t0 + threshold` returns true. The hypothesis `hrep` says that
the subtraction `t - t0` the member performs is defined: the difference is a value of
`time_type`. It holds for every two non-negative duration readings, and in the
`uint64_t` encoding for every two readings and threshold that satisfy `h`
(`time_type_valid_sub`, `time_type_valid_sub_of_wait`). -/
theorem has_time_elapsed_after_wait (lock_free : Bool) (w : stop_watch) (t0 t : Int)
    (hrep : time_type_valid lock_free (t - t0)) (h : t ≥ t0 + w.total_time_units) :
    stop_watch.has_time_elapsed lock_free (stop_watch.reset w 0 t0) t = true := by
  simp only [stop_watch.has_time_elapsed, stop_watch.reset, time_sub, ne_eq, not_true_eq_false,
    if_false, decide_eq_true_eq]
  rw [time_type_of_valid lock_free (t - t0) hrep]
  omega

/-- A stopwatch with threshold `5`, reset at the reading `100` and polled at `105`. -/
theorem has_time_elapsed_after_wait_witness :
    stop_watch.has_time_elapsed true
      (stop_watch.reset (stop_watch.construct true 5) 0 100) 105 = true :=
  has_time_elapsed_after_wait true (stop_watch.construct true 5) 100 105
    (by decide) (by decide)

/-- The difference of two clock readings is a value of `time_type` when both readings
are non-negative durations (lock-free encoding), or when both are `uint64_t` values and
the later one is not the smaller (`uint64_t` encoding). -/
theorem time_type_valid_sub (lock_free : Bool) (t0 t : Int)
    (h0 : time_type_valid lock_free t0) (h1 : time_type_valid lock_free t)
    (hle : if lock_free then 0 ≤ t0 ∧ 0 ≤ t else t0 ≤ t) :
    time_type_valid lock_free (t - t0) := by
  cases lock_free
  · simp only [time_type_valid, Bool.false_eq_true, if_false] at h0 h1 hle ⊢
    omega
  · simp only [time_type_valid, if_true] at h0 h1 hle ⊢
    omega

/-! Copies -/

theorem Store.set_same (σ : Store) (a : Nat) (w : stop_watch) : (σ.set a w) a = w := by
  simp [Store.set]

theorem Store.set_other (σ : Store) (a b : Nat) (w : stop_watch) (h : b ≠ a) :
    (σ.set a w) b = σ b := by
  simp [Store.set, h]

theorem copy_assign_this (σ : Store) (this other : Nat) (h : this ≠ other) :
    (copy_assign σ this other) this = σ other := by
  have h' : other ≠ this := fun e => h e.symm
  simp [copy_assign, h, h', Store.set]

theorem copy_assign_other (σ : Store) (this other : Nat) :
    (copy_assign σ this other) other = σ other := by
  by_cases h : this = other
  · simp [copy_assign, h]
  · have h' : other ≠ this := fun e => h e.symm
    simp [copy_assign, h, h', Store.set]

theorem copy_construct_this (σ : Store) (this other : Nat) (h : this ≠ other) :
    (copy_construct σ this other) this = σ other := by
  have h' : other ≠ this := fun e => h e.symm
  unfold copy_construct
  rw [copy_assign_this _ _ _ h, Store.set_other _ _ _ _ h']

theorem copy_construct_other (σ : Store) (this other : Nat) (h : this ≠ other) :
    (copy_construct σ this other) other = σ other := by
  have h' : other ≠ this := fun e => h e.symm
  unfold copy_construct
  rw [copy_assign_other, Store.set_other _ _ _ _ h']

/-- C10: a copy of the stopwatch at `src` into a distinct object at `dst`, by copy
assignment or by copy construction, gives `dst` the `get_total_wait_time()` and the
`get_count()` of `src`, leaves `src` as it was, and a later `add_time()` or `reset(v)`
on one of the two leaves the other one, its samples and its threshold included, as
it was. -/
theorem copy_independent (lock_free : Bool) (σ τ : Store) (dst src : Nat)
    (hne : dst ≠ src)
    (hcopy : τ = copy_assign σ dst src ∨ τ = copy_construct σ dst src) :
    stop_watch.get_total_wait_time lock_free (τ dst)
      = stop_watch.get_total_wait_time lock_free (σ src) ∧
    stop_watch.get_count (τ dst) = stop_watch.get_count (σ src) ∧
    τ src = σ src ∧
    (∀ now1 now2 : Int,
      (add_time_at lock_free τ dst now1 now2) src = σ src ∧
      ((add_time_at lock_free τ src now1 now2) dst).values = (σ src).values ∧
      ((add_time_at lock_free τ src now1 now2) dst).total_time_units
        = (σ src).total_time_units) ∧
    (∀ v now : Int,
      (reset_at τ dst v now) src = σ src ∧
      ((reset_at τ src v now) dst).values = (σ src).values ∧
      ((reset_at τ src v now) dst).total_time_units = (σ src).total_time_units) := by
  have hne' : src ≠ dst := fun e => hne e.symm
  have hdst : τ dst = σ src := by
    rcases hcopy with h | h
    · rw [h]; exact copy_assign_this σ dst src hne
    · rw [h]; exact copy_construct_this σ dst src hne
  have hsrc : τ src = σ src := by
    rcases hcopy with h | h
    · rw [h]; exact copy_assign_other σ dst src
    · rw [h]; exact copy_construct_other σ dst src hne
  refine ⟨by rw [hdst], by rw [hdst], hsrc, fun now1 now2 => ?_, fun v now => ?_⟩
  · refine ⟨?_, ?_, ?_⟩
    · rw [add_time_at, Store.set_other _ _ _ _ hne', hsrc]
    · rw [add_time_at, Store.set_other _ _ _ _ hne, hdst]
    · rw [add_time_at, Store.set_other _ _ _ _ hne, hdst]
  · refine ⟨?_, ?_, ?_⟩
    · rw [reset_at, Store.set_other _ _ _ _ hne', hsrc]
    · rw [reset_at, Store.set_other _ _ _ _ hne, hdst]
    · rw [reset_at, Store.set_other _ _ _ _ hne, hdst]

/-- The object at address `0` of `example_store` copied to address `1`: the copy has
the two samples of the source. -/
theorem copy_independent_witness :
    stop_watch.get_count ((copy_assign example_store 1 0) 1)
      = stop_watch.get_count (example_store 0) :=
  (copy_independent true example_store (copy_assign example_store 1 0) 1 0
    (by decide) (Or.inl rfl)).2.1

/-! The two forms of the elapsed time -/

/-- C11: in both encodings, `total_time_elapsed_uint64()` is `total_time_elapsed()`
converted to a plain 64-bit unsigned integer, both being `now - start_time_units`
modulo `2^64`, and neither call changes the state of the object. -/
theorem total_time_elapsed_uint64_eq (lock_free : Bool) (w : stop_watch) (now : Int) :
    stop_watch.total_time_elapsed_uint64 lock_free w now
      = get_value_as_uint lock_free (stop_watch.total_time_elapsed lock_free w now) ∧
    stop_watch.total_time_elapsed_uint64 lock_free w now
      = (now - w.start_time_units) % 18446744073709551616 ∧
    Call.apply lock_free w (Call.total_time_elapsed now) = w ∧
    Call.apply lock_free w (Call.total_time_elapsed_uint64 now) = w := by
  refine ⟨?_, ?_, rfl, rfl⟩
  · cases lock_free
    · simp only [stop_watch.total_time_elapsed_uint64, stop_watch.total_time_elapsed,
        get_value_as_uint, time_sub, time_type_of, Bool.false_eq_true, if_false]
    · simp only [stop_watch.total_time_elapsed_uint64, stop_watch.total_time_elapsed,
        get_value_as_uint, time_sub, time_type_of, to_uint64, to_int64, if_true]
      omega
  · cases lock_free
    · simp only [stop_watch.total_time_elapsed_uint64, get_value_as_uint, to_uint64,
        Bool.false_eq_true, if_false]
    · simp only [stop_watch.total_time_elapsed_uint64, get_value_as_uint, to_uint64, if_true]
      omega

/-! Moves and self-assignment -/

theorem move_assign_this (σ : Store) (this other : Nat) (h : this ≠ other) :
    (move_assign σ this other) this = σ other := by
  have h' : other ≠ this := fun e => h e.symm
  simp [move_assign, h, h', Store.set]

theorem move_assign_other (σ : Store) (this other : Nat) (h : this ≠ other) :
    (move_assign σ this other) other = { σ other with values := (σ this).values } := by
  have h' : other ≠ this := fun e => h e.symm
  simp [move_assign, h, h', Store.set]

/-- C12, the claim as stated, fails for the destination of a copy assignment: the
object at address `0` of `example_store` holds two samples, and after the object at
address `1`, which holds none, is copy-assigned to it, it holds none. -/
theorem get_count_shrinks_counterexample :
    stop_watch.get_count (example_store 0) = 2 ∧
    stop_watch.get_count ((copy_assign example_store 0 1) 0) = 0 := by
  decide

/-- C12, amended: `add_time()`, `reset(v)` and the queries never shorten `values`, and
neither does being the source of a copy assignment. The destination of a copy or move
assignment from a distinct object takes the length of the source, and the source of
such a move assignment takes the former length of the destination. -/
theorem get_count_after_call (lock_free : Bool) (w : stop_watch) (c : Call) (σ : Store)
    (dst src : Nat) :
    stop_watch.get_count w ≤ stop_watch.get_count (Call.apply lock_free w c) ∧
    stop_watch.get_count ((copy_assign σ dst src) src) = stop_watch.get_count (σ src) ∧
    (dst ≠ src →
      stop_watch.get_count ((copy_assign σ dst src) dst) = stop_watch.get_count (σ src) ∧
      stop_watch.get_count ((move_assign σ dst src) dst) = stop_watch.get_count (σ src) ∧
      stop_watch.get_count ((move_assign σ dst src) src) = stop_watch.get_count (σ dst)) := by
  refine ⟨?_, ?_, fun h => ⟨?_, ?_, ?_⟩⟩
  · rw [get_count_apply]
    omega
  · rw [copy_assign_other]
  · rw [copy_assign_this σ dst src h]
  · rw [move_assign_this σ dst src h]
  · rw [move_assign_other σ dst src h]
    rfl

/-- C14: copy-assigning or move-assigning an object to itself changes nothing: the
store, and so the threshold, the start mark and the samples of the object, are as
they were. -/
theorem self_assign_noop (σ : Store) (a : Nat) :
    copy_assign σ a a = σ ∧ move_assign σ a a = σ ∧
    ((copy_assign σ a a) a).total_time_units = (σ a).total_time_units ∧
    ((copy_assign σ a a) a).start_time_units = (σ a).start_time_units ∧
    ((copy_assign σ a a) a).values = (σ a).values ∧
    ((move_assign σ a a) a).total_time_units = (σ a).total_time_units ∧
    ((move_assign σ a a) a).start_time_units = (σ a).start_time_units ∧
    ((move_assign σ a a) a).values = (σ a).values := by
  have hc : copy_assign σ a a = σ := by simp [copy_assign]
  have hm : move_assign σ a a = σ := by simp [move_assign]
  rw [hc, hm]
  exact ⟨rfl, rfl, rfl, rfl, rfl, rfl, rfl, rfl⟩

/-- C17: for distinct objects, move assignment gives the destination the threshold,
the start mark and the samples of the source and leaves the source with its own
threshold and start mark and with the former samples of the destination; move
construction gives the new object the three members of the source and leaves the
source with no samples. -/
theorem move_spec (σ : Store) (dst src : Nat) (h : dst ≠ src) :
    ((move_assign σ dst src) dst).total_time_units = (σ src).total_time_units ∧
    ((move_assign σ dst src) dst).start_time_units = (σ src).start_time_units ∧
    ((move_assign σ dst src) dst).values = (σ src).values ∧
    ((move_assign σ dst src) src).total_time_units = (σ src).total_time_units ∧
    ((move_assign σ dst src) src).start_time_units = (σ src).start_time_units ∧
    ((move_assign σ dst src) src).values = (σ dst).values ∧
    ((move_construct σ dst src) dst).total_time_units = (σ src).total_time_units ∧
    ((move_construct σ dst src) dst).start_time_units = (σ src).start_time_units ∧
    ((move_construct σ dst src) dst).values = (σ src).values ∧
    ((move_construct σ dst src) src).total_time_units = (σ src).total_time_units ∧
    ((move_construct σ dst src) src).start_time_units = (σ src).start_time_units ∧
    ((move_construct σ dst src) src).values = [] := by
  have h' : src ≠ dst := fun e => h e.symm
  have hset : (σ.set dst stop_watch.default_members) src = σ src :=
    Store.set_other σ dst src _ h'
  have hdef : (σ.set dst stop_watch.default_members) dst = stop_watch.default_members :=
    Store.set_same σ dst _
  simp only [move_construct]
  rw [move_assign_this σ dst src h, move_assign_other σ dst src h,
    move_assign_this _ dst src h, move_assign_other _ dst src h, hset, hdef]
  exact ⟨rfl, rfl, rfl, rfl, rfl, rfl, rfl, rfl, rfl, rfl, rfl, rfl⟩

/-- The object at address `0` of `example_store` moved into the object at address `1`:
the destination receives the samples `4` and `5`. -/
theorem move_spec_witness :
    ((move_assign example_store 1 0) 1).values = (example_store 0).values :=
  (move_spec example_store 1 0 (by decide)).2.2.1

/-! The threshold along a sequence of calls -/

theorem threshold_apply (lock_free : Bool) (w : stop_watch) (c : Call) :
    (Call.apply lock_free w c).total_time_units = 0
      ↔ w.total_time_units = 0 ∧ c.sets_threshold = false := by
  cases c <;>
    simp [Call.apply, Call.sets_threshold, stop_watch.add_time, stop_watch.reset]
  rename_i v now
  by_cases hv : v = 0 <;> simp [hv]

theorem threshold_run_from (lock_free : Bool) (calls : List Call) :
    ∀ w : stop_watch, (run lock_free w calls).total_time_units = 0
      ↔ w.total_time_units = 0 ∧ ∀ c ∈ calls, c.sets_threshold = false := by
  induction calls with
  | nil => intro w; simp [run]
  | cons c cs ih =>
    intro w
    have h := ih (Call.apply lock_free w c)
    simp only [run, List.foldl_cons] at h ⊢
    rw [h, threshold_apply]
    simp only [List.mem_cons, forall_eq_or_imp]
    tauto

theorem construct_threshold_zero (lock_free : Bool) (n : Nat)
    (hn : n < 18446744073709551616) :
    (stop_watch.construct lock_free n).total_time_units = 0 ↔ n = 0 := by
  cases lock_free
  · simp only [stop_watch.construct, time_type_of, to_uint64, Bool.false_eq_true, if_false]
    omega
  · simp only [stop_watch.construct, time_type_of, to_int64, if_true]
    omega

/-- C13, the claim as stated, fails after `add_time()`: a stopwatch constructed with
threshold `0` still has threshold `0` after one `add_time()`, when it is no longer in
its freshly constructed state and the call just performed is not `reset()`. -/
theorem threshold_zero_counterexample :
    (run true (stop_watch.construct true 0) [Call.add_time 1 2]).total_time_units = 0 ∧
    run true (stop_watch.construct true 0) [Call.add_time 1 2] ≠ stop_watch.construct true 0 ∧
    (∀ now : Int, [Call.add_time 1 2].getLast? ≠ some (Call.reset 0 now)) := by
  refine ⟨by decide, by decide, fun now h => ?_⟩
  simp at h

/-- C13, amended: after construction with the 64-bit threshold `n` and any sequence
of `add_time()`, `reset(v)` and query calls, the threshold is zero exactly when `n` is
zero and no `reset(v)` with a non-zero `v` is in the sequence. -/
theorem threshold_zero_iff (lock_free : Bool) (n : Nat) (calls : List Call)
    (hn : n < 18446744073709551616) :
    (run lock_free (stop_watch.construct lock_free n) calls).total_time_units = 0
      ↔ n = 0 ∧ ∀ c ∈ calls, c.sets_threshold = false := by
  rw [threshold_run_from, construct_threshold_zero lock_free n hn]

/-- A stopwatch constructed with threshold `0`, after `add_time()` and `reset()`: the
threshold is `0`. -/
theorem threshold_zero_iff_witness :
    (run true (stop_watch.construct true 0)
      [Call.add_time 1 2, Call.reset 0 3]).total_time_units = 0 :=
  (threshold_zero_iff true 0 [Call.add_time 1 2, Call.reset 0 3] (by decide)).mpr
    ⟨rfl, by decide⟩

/-! Construction and the queries -/

/-- C18: a stopwatch freshly constructed with threshold `n` has the zero start mark and
no samples, no clock reading being taken; so `total_time_elapsed()` at the clock
reading `t` returns `t` and `get_count()` returns `0`. -/
theorem construct_fresh (lock_free : Bool) (n : Nat) (t : Int)
    (ht : time_type_valid lock_free t) :
    (stop_watch.construct lock_free n).start_time_units = 0 ∧
    (stop_watch.construct lock_free n).values = [] ∧
    stop_watch.total_time_elapsed lock_free (stop_watch.construct lock_free n) t = t ∧
    stop_watch.get_count (stop_watch.construct lock_free n) = 0 := by
  refine ⟨rfl, rfl, ?_, rfl⟩
  simp only [stop_watch.total_time_elapsed, stop_watch.construct, stop_watch.default_members,
    time_sub, sub_zero]
  exact time_type_of_valid lock_free t ht

/-- A stopwatch constructed with threshold `9` and read at the clock reading `1234`. -/
theorem construct_fresh_witness :
    stop_watch.total_time_elapsed true (stop_watch.construct true 9) 1234 = 1234 :=
  (construct_fresh true 9 1234 (by decide)).2.2.1

/-- C19: each query, `has_time_elapsed()`, `total_time_elapsed()`,
`total_time_elapsed_uint64()`, `get_count()`, `get_average(v)` and
`get_total_wait_time()`, leaves the threshold, the start mark and the samples as they
were, at every clock reading and for every `v`. -/
theorem query_frame (lock_free : Bool) (w : stop_watch) (now v : Int) :
    Call.apply lock_free w (Call.has_time_elapsed now) = w ∧
    Call.apply lock_free w (Call.total_time_elapsed now) = w ∧
    Call.apply lock_free w (Call.total_time_elapsed_uint64 now) = w ∧
    Call.apply lock_free w Call.get_count = w ∧
    Call.apply lock_free w (Call.get_average v) = w ∧
    Call.apply lock_free w Call.get_total_wait_time = w ∧
    (∀ c : Call, c.is_add_time = false → (∀ u t : Int, c ≠ Call.reset u t) →
      (Call.apply lock_free w c).total_time_units = w.total_time_units ∧
      (Call.apply lock_free w c).start_time_units = w.start_time_units ∧
      (Call.apply lock_free w c).values = w.values) := by
  refine ⟨rfl, rfl, rfl, rfl, rfl, rfl, fun c hc hr => ?_⟩
  cases c with
  | add_time a b => simp [Call.is_add_time] at hc
  | reset u t => exact absurd rfl (hr u t)
  | has_time_elapsed t => exact ⟨rfl, rfl, rfl⟩
  | get_average u => exact ⟨rfl, rfl, rfl⟩
  | get_total_wait_time => exact ⟨rfl, rfl, rfl⟩
  | total_time_elapsed t => exact ⟨rfl, rfl, rfl⟩
  | total_time_elapsed_uint64 t => exact ⟨rfl, rfl, rfl⟩
  | get_count => exact ⟨rfl, rfl, rfl⟩

/-! The mutex -/

theorem lock_discipline_scans (n : Nat) :
    lock_discipline true (List.replicate n Event.scan ++ [Event.unlock]) = true := by
  induction n with
  | zero => rfl
  | succ k ih =>
    show lock_discipline true (Event.scan :: (List.replicate k Event.scan ++ [Event.unlock]))
      = true
    simp only [lock_discipline, ih, Bool.and_self]

/-- C16, on the code: `get_average()` scans the samples with the mutex held and never
reads the clock, but `add_time()` takes no lock at all, so its append is made with the
mutex not held. -/
theorem add_time_appends_unlocked :
    Event.lock ∉ add_time_events ∧ Event.append ∈ add_time_events ∧
    lock_discipline false add_time_events = false ∧
    (∀ n : Nat, lock_discipline false (get_average_events n) = true) := by
  refine ⟨by decide, by decide, by decide, fun n => ?_⟩
  simp only [get_average_events, lock_discipline]
  exact lock_discipline_scans n

/-! Consecutive laps -/

theorem time_type_valid_of_between (lock_free : Bool) (x y : Int) (h0 : 0 ≤ x) (hxy : x ≤ y)
    (hy : time_type_valid lock_free y) : time_type_valid lock_free x := by
  cases lock_free
  · simp only [time_type_valid, Bool.false_eq_true, if_false] at hy ⊢
    omega
  · simp only [time_type_valid, if_true] at hy ⊢
    omega

theorem readings_ordered_cons (s : Int) (r : Int × Int) (rest : List (Int × Int)) :
    readings_ordered s (r :: rest) = true
      ↔ s ≤ r.1 ∧ r.1 ≤ r.2 ∧ readings_ordered r.2 rest = true := by
  simp [readings_ordered, and_assoc]

theorem le_last_reading (rs : List (Int × Int)) :
    ∀ s : Int, readings_ordered s rs = true → s ≤ last_reading s rs := by
  induction rs with
  | nil => intro s _; exact le_refl s
  | cons r rest ih =>
    intro s h
    rw [readings_ordered_cons] at h
    have hrest := ih r.2 h.2.2
    simp only [last_reading]
    omega

theorem add_time_values_start (lock_free : Bool) (w : stop_watch) (now1 now2 : Int) :
    (stop_watch.add_time lock_free w now1 now2).values
      = w.values ++ [time_sub lock_free now1 w.start_time_units] ∧
    (stop_watch.add_time lock_free w now1 now2).start_time_units = now2 := by
  simp [stop_watch.add_time, stop_watch.reset, stop_watch.total_time_elapsed]

theorem add_time_seq_laps (lock_free : Bool) (rs : List (Int × Int)) :
    ∀ w : stop_watch, readings_ordered w.start_time_units rs = true →
      time_type_valid lock_free (last_reading w.start_time_units rs - w.start_time_units) →
      ∃ laps : List Int,
        (add_time_seq lock_free w rs).values = w.values ++ laps ∧
        laps.length = rs.length ∧
        (∀ x ∈ laps, 0 ≤ x) ∧
        (add_time_seq lock_free w rs).start_time_units
          = last_reading w.start_time_units rs ∧
        laps.sum ≤ last_reading w.start_time_units rs - w.start_time_units ∧
        ((∀ r ∈ rs, r.1 = r.2) →
          laps.sum = last_reading w.start_time_units rs - w.start_time_units) := by
  induction rs with
  | nil =>
    intro w _ _
    exact ⟨[], by simp [add_time_seq], rfl, by simp, rfl, by simp [last_reading],
      fun _ => by simp [last_reading]⟩
  | cons r rest ih =>
    intro w hord hvalid
    rw [readings_ordered_cons] at hord
    obtain ⟨hs, hr, hrest⟩ := hord
    have hlast : r.2 ≤ last_reading r.2 rest := le_last_reading rest r.2 hrest
    simp only [last_reading] at hvalid
    have hlap : time_sub lock_free r.1 w.start_time_units = r.1 - w.start_time_units := by
      unfold time_sub
      exact time_type_of_valid lock_free _
        (time_type_valid_of_between lock_free _ _ (by omega) (by omega) hvalid)
    obtain ⟨hvalues, hstart⟩ := add_time_values_start lock_free w r.1 r.2
    have hih := ih (stop_watch.add_time lock_free w r.1 r.2)
      (by rw [hstart]; exact hrest)
      (by
        rw [hstart]
        exact time_type_valid_of_between lock_free _ _ (by omega) (by omega) hvalid)
    obtain ⟨laps, hv, hlen, hpos, hst, hsum, heq⟩ := hih
    rw [hstart] at hst hsum heq
    refine ⟨(r.1 - w.start_time_units) :: laps, ?_, ?_, ?_, ?_, ?_, ?_⟩
    · simp only [add_time_seq, List.foldl_cons] at hv ⊢
      rw [hv, hvalues, hlap, List.append_assoc]
      rfl
    · simp [hlen]
    · intro x hx
      rcases List.mem_cons.mp hx with h | h
      · omega
      · exact hpos x h
    · simp only [add_time_seq, List.foldl_cons, last_reading] at hst ⊢
      exact hst
    · simp only [List.sum_cons, last_reading]
      omega
    · intro hall
      have h1 : r.1 = r.2 := hall r (List.mem_cons_self r rest)
      have h2 := heq (fun q hq => hall q (List.mem_cons_of_mem r hq))
      simp only [List.sum_cons, last_reading]
      omega

/-- C20: for consecutive `add_time()` calls whose clock readings are non-decreasing
and at least the start mark `s0`, one sample is appended per call, every appended
sample is non-negative, their sum is at most the final start mark minus `s0`, and it
is equal to it when the two readings of each call are equal. The hypothesis `hvalid`
says that the subtractions the calls perform are defined: the last reading minus `s0`,
which bounds every difference taken, is a value of `time_type`. It holds whenever
`s0` and the readings are non-negative durations, and in the `uint64_t` encoding for
all readings (`time_type_valid_sub`). -/
theorem add_time_seq_sum (lock_free : Bool) (w : stop_watch) (rs : List (Int × Int))
    (hord : readings_ordered w.start_time_units rs = true)
    (hvalid : time_type_valid lock_free
      (last_reading w.start_time_units rs - w.start_time_units)) :
    (add_time_seq lock_free w rs).values
      = w.values ++ (add_time_seq lock_free w rs).values.drop w.values.length ∧
    ((add_time_seq lock_free w rs).values.drop w.values.length).length = rs.length ∧
    (∀ x ∈ (add_time_seq lock_free w rs).values.drop w.values.length, 0 ≤ x) ∧
    ((add_time_seq lock_free w rs).values.drop w.values.length).sum
      ≤ (add_time_seq lock_free w rs).start_time_units - w.start_time_units ∧
    ((∀ r ∈ rs, r.1 = r.2) →
      ((add_time_seq lock_free w rs).values.drop w.values.length).sum
        = (add_time_seq lock_free w rs).start_time_units - w.start_time_units) := by
  obtain ⟨laps, hv, hlen, hpos, hst, hsum, heq⟩ := add_time_seq_laps lock_free rs w hord hvalid
  have hdrop : (add_time_seq lock_free w rs).values.drop w.values.length = laps := by
    rw [hv, List.drop_left]
  rw [hdrop, hst]
  exact ⟨hv, hlen, hpos, hsum, heq⟩

/-- Two laps from the start mark `10`, with the readings `12`, `12`, `20` and `20`: the
two samples `2` and `8` add up to the final start mark minus `10`. -/
theorem add_time_seq_sum_witness :
    ((add_time_seq true { total_time_units := 0, start_time_units := 10, values := [1] }
        [(12, 12), (20, 20)]).values.drop 1).sum
      ≤ (add_time_seq true { total_time_units := 0, start_time_units := 10, values := [1] }
          [(12, 12), (20, 20)]).start_time_units - 10 :=
  (add_time_seq_sum true { total_time_units := 0, start_time_units := 10, values := [1] }
    [(12, 12), (20, 20)] (by decide) (by decide)).2.2.2.1

end test

/-! The file writer -/

/-- C15, the claim as stated, fails for `exceptions = false`: with a null pointer and
size `0` the diagnostic is written and the constructor goes on to open the path with
truncation, so a file that held the three bytes `0x41, 0x42, 0x43` is left empty. -/
theorem file_saver_truncates_counterexample :
    (file_saver false "out.bin" none 0 (some [65, 66, 67]) true false 0).file = some [] ∧
    (file_saver false "out.bin" none 0 (some [65, 66, 67]) true false 0).file
      ≠ some [65, 66, 67] ∧
    (file_saver false "out.bin" none 0 (some [65, 66, 67]) true false 0).crashed = false := by
  decide

/-- C15, amended: with a null pointer and size `0`, `file_saver<true>` throws before
it opens the path and the file is as it was; `file_saver<false>` writes the diagnostic
first, throws nothing, and then opens the path, which leaves the file empty when the
open succeeds and as it was when the open fails. -/
theorem file_saver_null (path : String) (existing : Option (List Nat))
    (open_ok write_fails : Bool) (written : Nat) :
    (file_saver true path none 0 existing open_ok write_fails written).thrown
      = some ("Cannot save null or empty data to file: " ++ path) ∧
    (file_saver true path none 0 existing open_ok write_fails written).file = existing ∧
    (file_saver true path none 0 existing open_ok write_fails written).crashed = false ∧
    (file_saver false path none 0 existing open_ok write_fails written).thrown = none ∧
    (file_saver false path none 0 existing open_ok write_fails written).cerr.head?
      = some ("Cannot save null or empty data to file: " ++ path) ∧
    (file_saver false path none 0 existing open_ok write_fails written).file
      = (if open_ok then some [] else existing) ∧
    (file_saver false path none 0 existing open_ok write_fails written).crashed = false := by
  cases open_ok <;> simp [file_saver]
